import Mathlib

/-!
Shallow embedding of the document identity / reconciliation core of the
docs-to-yaml toolchain, together with theorems checking the natural-language
specification against it.

Embedded source units:
* `internal/document/document.go` (namespace `Doc`): the Document record,
  `DetermineDocumentFormat` and `BuildKeyFromDocument`.
* the local-archive-to-yaml tool (namespace `Lav`): `DetermineCategory`,
  `DetermineFileFormat`, `TidyDocumentTitle` and the per-volume merge loop
  of its `main` function.
* `find-locally-unique/find-locally-unique.go` (namespace `Flu`):
  `BuildMapOfDocuments` and the local-vs-remote reconciliation loop of `main`.

Strings are modelled as Lean `String`; Go maps are modelled as association
functions `String -> Option v` (insertion order made explicit where the code
iterates); fatal aborts (`log.Fatal`) are modelled as `Option`/error results.
-/

namespace GoStr

/-- Character class of Go `unicode.IsSpace` (all Unicode white space:
the ASCII spaces, NEL, NBSP and the non-Latin-1 space code points). -/
def isUnicodeSpace (c : Char) : Bool :=
  (9 ≤ c.toNat && c.toNat ≤ 13) || c.toNat == 32 || c.toNat == 0x85 ||
  c.toNat == 0xA0 || c.toNat == 0x1680 ||
  (0x2000 ≤ c.toNat && c.toNat ≤ 0x200A) ||
  c.toNat == 0x2028 || c.toNat == 0x2029 || c.toNat == 0x202F ||
  c.toNat == 0x205F || c.toNat == 0x3000

/-- Character class of the RE2 escape `\s`, namely [\t\n\f\r ]. -/
def isRegexSpace (c : Char) : Bool :=
  c == ' ' || c == '\t' || c == '\n' || c.toNat == 12 || c.toNat == 13

/-- Go `strings.TrimSpace`: drop Unicode white space from both ends. -/
def trimSpaceChars (cs : List Char) : List Char :=
  ((cs.dropWhile isUnicodeSpace).reverse.dropWhile isUnicodeSpace).reverse

/-- Helper for `fieldsChars`: accumulate the current word (reversed in `acc`)
while splitting at white space. -/
def fieldsAux (acc : List Char) : List Char → List (List Char)
  | [] => if acc.isEmpty then [] else [acc.reverse]
  | c :: rest =>
    if isUnicodeSpace c then
      if acc.isEmpty then fieldsAux [] rest
      else acc.reverse :: fieldsAux [] rest
    else fieldsAux (c :: acc) rest

/-- Go `strings.Fields`: split around runs of Unicode white space. -/
def fieldsChars (cs : List Char) : List (List Char) := fieldsAux [] cs

/-- Go `strings.Replace(s, "\r\n", "", -1)`: delete every CR-LF pair,
scanning left to right. -/
def removeCRLF : List Char → List Char
  | [] => []
  | [c] => [c]
  | c :: d :: rest =>
    if c == '\r' && d == '\n' then removeCRLF rest
    else c :: removeCRLF (d :: rest)

/-- Whether `needle` occurs at the start of `haystack` (Go `strings.HasPrefix`
restricted to the uses below). -/
def startsWithChars : List Char → List Char → Bool
  | [], _ => true
  | _ :: _, [] => false
  | a :: as, b :: bs => a == b && startsWithChars as bs

/-- Whether `needle` occurs somewhere inside `haystack`. -/
def occursWithin (needle : List Char) : List Char → Bool
  | [] => startsWithChars needle []
  | c :: rest => startsWithChars needle (c :: rest) || occursWithin needle rest

/-- Go `strings.Contains s sub`. -/
def containsStr (s sub : String) : Bool := occursWithin sub.data s.data

/-- Scan helper for Go `path/filepath.Ext`, applied to the reversed path:
collect the characters after the last dot of the last path element.
Returns `none` when that element has no dot. -/
def extRev : List Char → Option (List Char)
  | [] => none
  | c :: rest =>
    if c == '.' then some []
    else if c == '/' then none
    else (extRev rest).map (fun e => e ++ [c])

/-- Go `filepath.Ext`: the suffix of `path` beginning at the final dot of the
final slash-separated element, dot included; empty when there is no dot. -/
def goExt (path : String) : String :=
  match extRev path.data.reverse with
  | some e => String.mk ('.' :: e)
  | none => ""

/-- Go `filepath.Base`: drop trailing slashes and everything up to the final
slash; "." for the empty path, "/" when the path is all slashes. -/
def baseName (path : String) : String :=
  if path == "" then "."
  else
    let cs := (path.data.reverse.dropWhile (fun c => c == '/'))
    if cs.isEmpty then "/"
    else String.mk (cs.takeWhile (fun c => c != '/')).reverse

/-- Uppercase a string character by character (Go `strings.ToUpper` on the
ASCII alphabet used by the file extensions below). -/
def upperStr (s : String) : String := String.mk (s.data.map Char.toUpper)

/-- Go `strings.TrimPrefix s "."`. -/
def trimLeadingDot (s : String) : String :=
  match s.data with
  | '.' :: rest => String.mk rest
  | _ => s

/-- Delete every '-' and '.' from a string, as the reconciliation engine
normalizes part numbers (`strings.Replace` with "-" and "." in turn). -/
def stripDashDot (s : String) : String :=
  String.mk (s.data.filter (fun c => c != '-' && c != '.'))

end GoStr

namespace Doc

/-- The Document record of internal/document/document.go. `Size` is the Go
`int64` byte count; all other fields are strings exactly as in the source. -/
structure Document where
  Format : String := ""
  Size : Int := 0
  Md5 : String := ""
  Title : String := ""
  PubDate : String := ""
  PartNum : String := ""
  PdfCreator : String := ""
  PdfProducer : String := ""
  PdfVersion : String := ""
  PdfModified : String := ""
  Collection : String := ""
  Filepath : String := ""
  PublicUrl : String := ""
  Flags : String := ""
  deriving DecidableEq

/-- KnownFileTypes array of internal/document/document.go. -/
def KnownFileTypes : List String :=
  ["PDF", "TXT", "MEM", "RNO", "PS", "HTM", "HTML", "ZIP", "LN3", "TIF",
   "JPG", "JPEG", "PNG", "DOC"]

/-- FileTypesToRecategorise map of internal/document/document.go (a Go map
literal with distinct keys; lookup order is immaterial). -/
def FileTypesToRecategorise (s : String) : Option String :=
  if s == "HTM" then some "HTML"
  else if s == "JP2" then some "JPEG"
  else if s == "JPG" then some "JPEG"
  else if s == "TIF" then some "TIFF"
  else none

/-- The uppercased, dot-stripped extension computed at the top of
`DetermineDocumentFormat`. -/
def upperExt (filename : String) : String :=
  GoStr.trimLeadingDot (GoStr.upperStr (GoStr.goExt filename))

/-- The map-lookup-with-fallback applied to the extension inside
`DetermineDocumentFormat` (`if ftype, found := ...; found` in the source). -/
def recatApply (s : String) : String :=
  match FileTypesToRecategorise s with
  | some ftype => ftype
  | none => s

/-- `DetermineDocumentFormat` of internal/document/document.go. The Go
function returns a pair (format string, error); the error is modelled as
`Option String` carrying the error text, `none` meaning nil. -/
def DetermineDocumentFormat (filename : String) : String × Option String :=
  let filetype := recatApply (upperExt filename)
  if KnownFileTypes.contains filetype then (filetype, none)
  else ("???", some "unknown file type when trying to determine document format")

/-- The uppercased extensions `DetermineDocumentFormat` actually accepts:
`KnownFileTypes` with TIF removed (it recategorises to TIFF, which is not in
`KnownFileTypes`) and JP2 added (it recategorises to JPEG, which is). -/
def acceptedExtensions : List String :=
  ["PDF", "TXT", "MEM", "RNO", "PS", "HTM", "HTML", "ZIP", "LN3",
   "JPG", "JPEG", "JP2", "PNG", "DOC"]

/-- The possible successful outputs of `DetermineDocumentFormat`:
`KnownFileTypes` minus the synonym spellings HTM, TIF and JPG, which the
recategorisation rewrites before the membership test. -/
def canonicalFormats : List String :=
  ["PDF", "TXT", "MEM", "RNO", "PS", "HTML", "ZIP", "LN3", "JPEG", "PNG", "DOC"]

/-- Package variable `inventedPartNum` of internal/document/document.go. -/
def inventedPartNum : String := ""

/-- Package variable `inventedTitle` of internal/document/document.go. -/
def inventedTitle : String := ""

/-- `BuildKeyFromDocument` of internal/document/document.go: MD5 checksum if
present, else part number plus the filepath's extension, else title plus the
filepath's extension, else the filepath. -/
def BuildKeyFromDocument (doc : Document) : String :=
  if doc.Md5 != "" then doc.Md5
  else if doc.PartNum != "" && doc.PartNum != inventedPartNum then
    doc.PartNum ++ GoStr.goExt doc.Filepath
  else if doc.Title != "" && doc.Title != inventedTitle then
    doc.Title ++ GoStr.goExt doc.Filepath
  else doc.Filepath

end Doc

/-- A Go `map[string]V`, modelled as a lookup function. -/
def StrMap (α : Type) : Type := String → Option α

/-- The empty map. -/
def emptyMap {α : Type} : StrMap α := fun _ => none

/-- Map update `m[k] = v`. -/
def mapInsert {α : Type} (m : StrMap α) (k : String) (v : α) : StrMap α :=
  fun q => if q = k then some v else m q

namespace Lav

/-- The ArchiveCategory enum of the local-archive-to-yaml tool. -/
inductive ArchiveCategory where
  | AC_Undefined
  | AC_CSV
  | AC_Regular
  | AC_HTML
  | AC_Metadata
  | AC_Custom
  deriving DecidableEq

/-- The six legal ArchiveCategory enum values. -/
def allArchiveCategories : List ArchiveCategory :=
  [.AC_Undefined, .AC_CSV, .AC_Regular, .AC_HTML, .AC_Metadata, .AC_Custom]

/-- Result of `DetermineCategory`: the returned category, plus the final value
of the function's internal `valid` flag. In the source every place that sets
`valid = false` also prints a diagnostic, so `valid = false` holds exactly
when the marker combination was flagged (logged) as invalid. -/
structure CategoryDecision where
  category : ArchiveCategory
  valid : Bool
  deriving DecidableEq

/-- `DetermineCategory` of the local-archive-to-yaml tool, viewed as a function
of the five filesystem marker booleans it computes at the archive root:
`idx` = index.htm exists, `bigIdx` = INDEX.HTM exists, `custom` = the
DEC_0040.CRC custom-indicator exists, `htmlDir` = the HTML/ subdirectory
exists, `metaDir` = the metadata/ subdirectory exists. The lets mirror the
source's sequential mutation of `valid` and `category`. -/
def DetermineCategory (idx bigIdx custom htmlDir metaDir : Bool) : CategoryDecision :=
  let category := ArchiveCategory.AC_Undefined
  let valid := true
  let vc :=
    if bigIdx then
      let valid := if !htmlDir then false else valid
      let valid := if idx || metaDir || custom then false else valid
      let category := if valid then ArchiveCategory.AC_HTML else category
      (valid, category)
    else
      (if htmlDir then false else valid, category)
  let valid := vc.1
  let category := vc.2
  let valid := if !idx && category != ArchiveCategory.AC_HTML then false else valid
  let vc2 :=
    if metaDir then
      let valid := if custom then false else valid
      let category := if valid then ArchiveCategory.AC_Metadata else category
      (valid, category)
    else (valid, category)
  let valid := vc2.1
  let category := vc2.2
  let category := if custom && valid then ArchiveCategory.AC_Custom else category
  let category :=
    if valid && category == ArchiveCategory.AC_Undefined then ArchiveCategory.AC_Regular
    else category
  ⟨category, valid⟩

/-- KnownFileTypes array of the local-archive-to-yaml tool (it lacks PNG and
DOC, which only the internal document package knows). -/
def KnownFileTypes : List String :=
  ["PDF", "TXT", "MEM", "RNO", "PS", "HTM", "HTML", "ZIP", "LN3", "TIF",
   "JPG", "JPEG"]

/-- `DetermineFileFormat` of the local-archive-to-yaml tool. Its extension
extraction line is identical to the one in `Doc.DetermineDocumentFormat`
(`strings.TrimPrefix(strings.ToUpper(filepath.Ext(filename)), ".")`), so
`Doc.upperExt` is reused. An unknown file type hits `log.Fatal`, modelled
as `none`. -/
def DetermineFileFormat (filename : String) : Option String :=
  let filetype := Doc.upperExt filename
  let filetype := if filetype == "HTM" then "HTML" else filetype
  let filetype := if filetype == "JPE" then "JPEG" else filetype
  if KnownFileTypes.contains filetype then some filetype
  else none

/-- The possible successful outputs of `DetermineFileFormat`: its
`KnownFileTypes` minus HTM (rewritten to HTML before the membership test);
unlike the document package's normalizer it returns TIF and JPG unchanged. -/
def canonicalFormats : List String :=
  ["PDF", "TXT", "MEM", "RNO", "PS", "HTML", "ZIP", "LN3", "TIF",
   "JPG", "JPEG"]

/-- Drop the leading characters matched by the RE2 class `\s`. -/
def dropRegexSpace (cs : List Char) : List Char := cs.dropWhile GoStr.isRegexSpace

/-- Whether the list starts with the literal `<BR>`. -/
def isBRAt : List Char → Bool
  | '<' :: 'B' :: 'R' :: '>' :: _ => true
  | _ => false

/-- After one `<BR>` has been consumed, consume the rest of a match of
`\s*<BR>(?:\s*<BR>\s*)*\s*`, i.e. repeatedly white space plus `<BR>`, then
trailing white space; returns the unconsumed remainder. Each recursive step
consumes at least four characters, so `fuel` bounded below by the input
length never runs out. -/
def brRunTail : Nat → List Char → List Char
  | 0, cs => cs
  | fuel + 1, cs =>
    let cs2 := dropRegexSpace cs
    if isBRAt cs2 then brRunTail fuel (cs2.drop 4) else cs2

/-- Try to match the regular expression `\s*<BR>(?:\s*<BR>\s*)*\s*` at the
head of the list; on success return the remainder after the (greedy,
maximal) match. -/
def matchBRRun (cs : List Char) : Option (List Char) :=
  let cs1 := dropRegexSpace cs
  if isBRAt cs1 then some (brRunTail cs1.length (cs1.drop 4)) else none

/-- `regexp.ReplaceAllString` for the pattern above with replacement ". ":
scan left to right, replacing each leftmost match and continuing after it.
Each step consumes at least one character, so `fuel` bounded below by the
input length never runs out. -/
def replaceBRAux : Nat → List Char → List Char
  | 0, cs => cs
  | _ + 1, [] => []
  | fuel + 1, c :: rest =>
    match matchBRRun (c :: rest) with
    | some rest2 => '.' :: ' ' :: replaceBRAux fuel rest2
    | none => c :: replaceBRAux fuel rest

/-- String-level wrapper for the `<BR>`-run replacement. -/
def replaceBRRuns (s : String) : String := String.mk (replaceBRAux s.data.length s.data)

/-- `TidyDocumentTitle` of the local-archive-to-yaml tool: trim surrounding
white space, delete CR-LF pairs, collapse white-space runs
(`strings.Join(strings.Fields(title), " ")`), then replace every run of
`<BR>` tokens and surrounding white space with ". ". -/
def TidyDocumentTitle (untidyTitle : String) : String :=
  let title := String.mk (GoStr.trimSpaceChars untidyTitle.data)
  let title := String.mk (GoStr.removeCRLF title.data)
  let title := String.mk (List.intercalate [' '] (GoStr.fieldsChars title.data))
  replaceBRRuns title

/-- One step of the per-volume merge loop in the local-archive-to-yaml
`main` function. On a key collision: if the new document's MD5 is non-empty
and equal to the existing one's, the entry is replaced silently (the
WARNING(1a) message is verbose-only); otherwise a WARNING(1) message is
printed at normal level (counted in the second component) and the new
document is stored under the mangled key
`k ++ "DUPLICATE-of-" ++ existing.Filepath`, leaving the existing entry in
place. -/
def mergeArchiveStep (acc : StrMap Doc.Document × Nat) (e : String × Doc.Document) :
    StrMap Doc.Document × Nat :=
  match acc.1 e.1 with
  | none => (mapInsert acc.1 e.1 e.2, acc.2)
  | some val =>
    if e.2.Md5 != "" && e.2.Md5 == val.Md5 then
      (mapInsert acc.1 e.1 e.2, acc.2)
    else
      (mapInsert acc.1 (e.1 ++ "DUPLICATE-of-" ++ val.Filepath) e.2, acc.2 + 1)

/-- Fold a volume's document entries into the master map, as the loop
`for k, v := range extraDocumentsMap` does. -/
def mergeArchive (entries : List (String × Doc.Document)) : StrMap Doc.Document × Nat :=
  entries.foldl mergeArchiveStep (emptyMap, 0)

end Lav

namespace Flu

/-- Key chosen by `BuildMapOfDocuments` of find-locally-unique for a YAML
entry `(k, v)`: the document's MD5 when that is non-empty and differs from
the stored key, else `BuildKeyFromDocument` when the stored key is empty,
else the stored key. -/
def deriveMergeKey (k : String) (v : Doc.Document) : String :=
  if k != v.Md5 && v.Md5 != "" then v.Md5
  else if k == "" then Doc.BuildKeyFromDocument v
  else k

/-- One step of the merge loop of `BuildMapOfDocuments`: insert under the
derived key when new; on a collision keep the existing entry, counting a
"presumed-same docs with differing MD5" warning (printed at normal level)
when the checksums differ. -/
def mergeStep (acc : StrMap Doc.Document × Nat) (e : String × Doc.Document) :
    StrMap Doc.Document × Nat :=
  let key := deriveMergeKey e.1 e.2
  match acc.1 key with
  | some existing =>
    if e.2.Md5 != existing.Md5 then (acc.1, acc.2 + 1) else acc
  | none => (mapInsert acc.1 key e.2, acc.2)

/-- Merge one source file's entries into the accumulated map. -/
def mergeFile (acc : StrMap Doc.Document × Nat) (entries : List (String × Doc.Document)) :
    StrMap Doc.Document × Nat :=
  entries.foldl mergeStep acc

/-- `BuildMapOfDocuments` of find-locally-unique: fold each named file's
parsed YAML entries into one master map (the second component counts the
differing-checksum warnings printed along the way). -/
def BuildMapOfDocuments (files : List (List (String × Doc.Document))) :
    StrMap Doc.Document × Nat :=
  files.foldl mergeFile (emptyMap, 0)

/-- The path-fragment block-list of find-locally-unique's `main`. -/
def pathFragmentsToReject : List String :=
  ["/metadata/", "/bitsavers/", "/chook/", "/MDS/1994-"]

/-- Whether a local filepath contains one of the configured block-list
fragments (the inner rejection loop of `main`). -/
def rejectedByPath (fp : String) : Bool :=
  pathFragmentsToReject.any (fun p => GoStr.containsStr fp p)

/-- Outcome of the per-document classification chain in `main`. -/
inductive LocalClass where
  | path
  | md5
  | pn
  | fn
  | unique
  deriving DecidableEq

/-- The classification chain applied to one local document by `main`:
block-listed path fragment first, then MD5 lookup in the remote map, then
normalized part-number lookup, then base-filename lookup; otherwise the
document is locally unique. -/
def classifyLocal (remote pnIdx fnIdx : StrMap Doc.Document) (doc : Doc.Document) :
    LocalClass :=
  if rejectedByPath doc.Filepath then .path
  else if (remote doc.Md5).isSome then .md5
  else if (pnIdx (GoStr.stripDashDot doc.PartNum)).isSome then .pn
  else if (fnIdx (GoStr.baseName doc.Filepath)).isSome then .fn
  else .unique

/-- The mutable state of the reconciliation loop: the locally-unique output
map and the diagnostic counters printed at the end of the run. -/
structure ReconState where
  uniqueDocuments : StrMap Doc.Document
  localMissingMd5 : Nat
  matchedMD5 : Nat
  matchedPath : Nat
  matchedPN : Nat
  matchedFN : Nat
  locallyUnique : Nat

/-- Initial reconciliation state. -/
def initRecon : ReconState :=
  { uniqueDocuments := emptyMap, localMissingMd5 := 0, matchedMD5 := 0,
    matchedPath := 0, matchedPN := 0, matchedFN := 0, locallyUnique := 0 }

/-- One iteration of the local-document loop of `main`: count a missing
checksum, then run the classification chain, bumping the matching counter;
a unique document is inserted into the output map under its filepath. -/
def reconStep (remote pnIdx fnIdx : StrMap Doc.Document) (st : ReconState)
    (doc : Doc.Document) : ReconState :=
  let st := if doc.Md5 == "" then { st with localMissingMd5 := st.localMissingMd5 + 1 } else st
  match classifyLocal remote pnIdx fnIdx doc with
  | .path => { st with matchedPath := st.matchedPath + 1 }
  | .md5 => { st with matchedMD5 := st.matchedMD5 + 1 }
  | .pn => { st with matchedPN := st.matchedPN + 1 }
  | .fn => { st with matchedFN := st.matchedFN + 1 }
  | .unique =>
    { st with uniqueDocuments := mapInsert st.uniqueDocuments doc.Filepath doc,
              locallyUnique := st.locallyUnique + 1 }

/-- The whole local-document loop of `main`. -/
def processLocals (remote pnIdx fnIdx : StrMap Doc.Document) (docs : List Doc.Document) :
    ReconState :=
  docs.foldl (reconStep remote pnIdx fnIdx) initRecon

/-- One step of the remote-index construction loop of `main`: index a remote
document by normalized part number and by base filename; on a collision the
first document to claim a key wins (the warning is verbose-only and the
latter document is dropped). -/
def remoteIdxStep (acc : StrMap Doc.Document × StrMap Doc.Document) (v : Doc.Document) :
    StrMap Doc.Document × StrMap Doc.Document :=
  let partNum := GoStr.stripDashDot v.PartNum
  let byPN := if (acc.1 partNum).isSome then acc.1 else mapInsert acc.1 partNum v
  let fn := GoStr.baseName v.Filepath
  let byFN := if (acc.2 fn).isSome then acc.2 else mapInsert acc.2 fn v
  (byPN, byFN)

/-- The whole remote-index construction loop of `main`, over the remote
documents in iteration order. -/
def buildRemoteIndexes (remotes : List Doc.Document) :
    StrMap Doc.Document × StrMap Doc.Document :=
  remotes.foldl remoteIdxStep (emptyMap, emptyMap)

end Flu


section MapLemmas

theorem mapInsert_self {α : Type} (m : StrMap α) (k : String) (v : α) :
    mapInsert m k v k = some v := by
  simp [mapInsert]

theorem mapInsert_other {α : Type} (m : StrMap α) (k q : String) (v : α) (h : q ≠ k) :
    mapInsert m k v q = m q := by
  simp [mapInsert, h]

theorem append_ne_self_of_ne_empty (k s : String) (h : s ≠ "") : k ≠ k ++ s := by
  intro hk
  apply h
  have hlen := congrArg String.length hk
  rw [String.length_append] at hlen
  have : s.length = 0 := by omega
  cases s with
  | mk data =>
    cases data with
    | nil => rfl
    | cons a as => simp [String.length] at this

end MapLemmas

/-- C1. Key derivation priority of `BuildKeyFromDocument`, as amended: the
checksum when non-empty; otherwise, when the part number is non-empty, the
part number with the filepath's extension appended; otherwise, when the
title is non-empty, the title with the filepath's extension appended;
otherwise the filepath. For the concrete scenario document (checksum "",
part number "EK-ABCDE-AA-001", title "Guide") the key is exactly
"EK-ABCDE-AA-001" only when the filepath has no extension. -/
theorem C1_key_priority (doc : Doc.Document) :
    (doc.Md5 ≠ "" → Doc.BuildKeyFromDocument doc = doc.Md5) ∧
    (doc.Md5 = "" → doc.PartNum ≠ "" →
      Doc.BuildKeyFromDocument doc = doc.PartNum ++ GoStr.goExt doc.Filepath) ∧
    (doc.Md5 = "" → doc.PartNum = "" → doc.Title ≠ "" →
      Doc.BuildKeyFromDocument doc = doc.Title ++ GoStr.goExt doc.Filepath) ∧
    (doc.Md5 = "" → doc.PartNum = "" → doc.Title = "" →
      Doc.BuildKeyFromDocument doc = doc.Filepath) ∧
    (doc.Md5 = "" → doc.PartNum = "EK-ABCDE-AA-001" → GoStr.goExt doc.Filepath = "" →
      Doc.BuildKeyFromDocument doc = "EK-ABCDE-AA-001") := by
  refine ⟨?_, ?_, ?_, ?_, ?_⟩
  · intro h
    simp [Doc.BuildKeyFromDocument, h]
  · intro h1 h2
    simp [Doc.BuildKeyFromDocument, Doc.inventedPartNum, h1, h2]
  · intro h1 h2 h3
    simp [Doc.BuildKeyFromDocument, Doc.inventedPartNum, Doc.inventedTitle, h1, h2, h3]
  · intro h1 h2 h3
    simp [Doc.BuildKeyFromDocument, Doc.inventedPartNum, Doc.inventedTitle, h1, h2, h3]
  · intro h1 h2 h3
    simp [Doc.BuildKeyFromDocument, Doc.inventedPartNum, h1, h2, h3]

/-- C1 witness: the theorem applied to the concrete scenario document with an
extension-free filepath. -/
theorem C1_key_priority_witness :
    Doc.BuildKeyFromDocument
      { Md5 := "", PartNum := "EK-ABCDE-AA-001", Title := "Guide", Filepath := "dir/file" } =
      "EK-ABCDE-AA-001" :=
  (C1_key_priority
    { Md5 := "", PartNum := "EK-ABCDE-AA-001", Title := "Guide", Filepath := "dir/file" }
  ).2.2.2.2 rfl rfl (by decide)

/-- C1 counterexample: with a filepath that has an extension, the key is the
part number with that extension appended, not the bare part number the claim
predicts. -/
theorem C1_counterexample :
    Doc.BuildKeyFromDocument
      { Md5 := "", PartNum := "EK-ABCDE-AA-001", Title := "Guide", Filepath := "a/b.pdf" } =
      "EK-ABCDE-AA-001.pdf" ∧
    ("EK-ABCDE-AA-001.pdf" : String) ≠ "EK-ABCDE-AA-001" := by
  constructor
  · decide
  · decide

/-- C4. Merge collision policy of the per-volume merge loop: two entries with
the same key and differing non-empty checksums leave the first-inserted
document in place under that key, emit exactly one normal-level warning, and
never abort (the merge is a total function; the second document goes under a
mangled key). The final conjunct records why such a collision cannot even
reach the find-locally-unique merge with both checksums non-empty: there the
derived key of any entry with a non-empty checksum is that checksum. -/
theorem C4_merge_collision (k : String) (d1 d2 : Doc.Document)
    (hne : d1.Md5 ≠ d2.Md5) (h2 : d2.Md5 ≠ "") :
    (Lav.mergeArchive [(k, d1), (k, d2)]).1 k = some d1 ∧
    (Lav.mergeArchive [(k, d1), (k, d2)]).2 = 1 ∧
    (∀ q v, v.Md5 ≠ "" → Flu.deriveMergeKey q v = v.Md5) := by
  have hkey : k ≠ k ++ "DUPLICATE-of-" ++ d1.Filepath := by
    rw [String.append_assoc]
    apply append_ne_self_of_ne_empty
    intro h
    have hlen := congrArg String.length h
    rw [String.length_append] at hlen
    have h13 : ("DUPLICATE-of-" : String).length = 13 := rfl
    have h0 : ("" : String).length = 0 := rfl
    omega
  have hstep1 : Lav.mergeArchiveStep (emptyMap, 0) (k, d1) = (mapInsert emptyMap k d1, 0) := rfl
  have hrun : Lav.mergeArchive [(k, d1), (k, d2)] =
      Lav.mergeArchiveStep (mapInsert emptyMap k d1, 0) (k, d2) := by
    rw [show Lav.mergeArchive [(k, d1), (k, d2)] =
          Lav.mergeArchiveStep (Lav.mergeArchiveStep (emptyMap, 0) (k, d1)) (k, d2) from rfl,
        hstep1]
  refine ⟨?_, ?_, ?_⟩
  · rw [hrun]
    simp only [Lav.mergeArchiveStep, mapInsert_self]
    rw [if_neg]
    · simp [mapInsert, hkey]
    · simp [bne_iff_ne, beq_iff_eq, h2]
      exact fun h => (hne h.symm).elim
  · rw [hrun]
    simp only [Lav.mergeArchiveStep, mapInsert_self]
    rw [if_neg]
    simp [bne_iff_ne, beq_iff_eq, h2]
    exact fun h => (hne h.symm).elim
  · intro q v hv
    by_cases hq : q = v.Md5
    · subst hq
      simp [Flu.deriveMergeKey, hv]
    · simp [Flu.deriveMergeKey, bne_iff_ne, hq, hv]

/-- C4 witness: the theorem applied to two concrete documents with differing
non-empty checksums colliding on the key "K". -/
theorem C4_merge_collision_witness :
    (Lav.mergeArchive [("K", { Md5 := "A", Filepath := "p1" }), ("K", { Md5 := "B" })]).1 "K" =
      some { Md5 := "A", Filepath := "p1" } ∧
    (Lav.mergeArchive [("K", { Md5 := "A", Filepath := "p1" }), ("K", { Md5 := "B" })]).2 = 1 :=
  ⟨(C4_merge_collision "K" { Md5 := "A", Filepath := "p1" } { Md5 := "B" }
      (by decide) (by decide)).1,
   (C4_merge_collision "K" { Md5 := "A", Filepath := "p1" } { Md5 := "B" }
      (by decide) (by decide)).2.1⟩

/-- C7. The archive classifier, as a function of the five marker booleans,
always returns one of the six ArchiveCategory values; in particular, with
only the lowercase index marker set it returns the regular category. -/
theorem C7_classifier_total :
    (∀ idx bigIdx custom htmlDir metaDir : Bool,
      (Lav.DetermineCategory idx bigIdx custom htmlDir metaDir).category ∈
        Lav.allArchiveCategories) ∧
    (Lav.DetermineCategory true false false false false).category = .AC_Regular := by
  constructor
  · intro idx bigIdx custom htmlDir metaDir
    cases h : (Lav.DetermineCategory idx bigIdx custom htmlDir metaDir).category <;>
      simp [Lav.allArchiveCategories]
  · decide

/-- C8 counterexample: with the metadata subdirectory and the custom
indicator both present (lowercase index present, no uppercase index, no HTML
subdirectory), the classifier returns the undefined category, not custom. -/
theorem C8_counterexample :
    (Lav.DetermineCategory true false true false true).category = .AC_Undefined ∧
    Lav.ArchiveCategory.AC_Undefined ≠ Lav.ArchiveCategory.AC_Custom := by
  constructor
  · decide
  · decide

/-- C8. As amended: when both the metadata subdirectory and the
custom-indicator marker are present (with the lowercase index present and no
uppercase index or HTML subdirectory), the combination is flagged invalid
and the invalidation forces the returned category to undefined; custom does
not override metadata-indirect. -/
theorem C8_both_markers_undefined :
    Lav.DetermineCategory true false true false true =
      ⟨Lav.ArchiveCategory.AC_Undefined, false⟩ := by
  decide

/-- C9. Title cleanup: `TidyDocumentTitle` is the in-order composition of
trimming surrounding white space, deleting CR-LF pairs, collapsing
white-space runs to single spaces, and replacing each run of `<BR>` tokens
together with surrounding white space by ". "; on the concrete scenario
input it yields exactly "Hello. World. !". -/
theorem C9_title_tidy :
    Lav.TidyDocumentTitle "  Hello <BR> World  <BR><BR> !  " = "Hello. World. !" ∧
    (∀ s, Lav.TidyDocumentTitle s =
      Lav.replaceBRRuns (String.mk (List.intercalate [' ']
        (GoStr.fieldsChars (GoStr.removeCRLF (GoStr.trimSpaceChars s.data)))))) ∧
    Lav.TidyDocumentTitle " A \r\n B " = "A B" ∧
    Lav.TidyDocumentTitle "A <BR><BR><BR> B" = "A. B" := by
  refine ⟨by decide, ?_, by decide, by decide⟩
  intro s
  rfl

section ReconLemmas

theorem mapInsert_isSome_of {α : Type} (m : StrMap α) (k q : String) (v : α)
    (h : (m q).isSome = true) : (mapInsert m k v q).isSome = true := by
  by_cases hq : q = k
  · subst hq; simp [mapInsert]
  · simpa [mapInsert, hq] using h

theorem classify_path_iff (remote pnIdx fnIdx : StrMap Doc.Document) (doc : Doc.Document) :
    Flu.classifyLocal remote pnIdx fnIdx doc = .path ↔
      Flu.rejectedByPath doc.Filepath = true := by
  by_cases h : Flu.rejectedByPath doc.Filepath
  · simp [Flu.classifyLocal, h]
  · simp only [Flu.classifyLocal, h]
    simp only [Bool.false_eq_true, if_false]
    constructor
    · intro hc
      exfalso
      split_ifs at hc
    · intro hc
      simp [h] at hc

theorem reconStep_uniqueDocuments (remote pnIdx fnIdx : StrMap Doc.Document)
    (st : Flu.ReconState) (doc : Doc.Document) :
    (Flu.reconStep remote pnIdx fnIdx st doc).uniqueDocuments =
      (if Flu.classifyLocal remote pnIdx fnIdx doc = .unique
       then mapInsert st.uniqueDocuments doc.Filepath doc
       else st.uniqueDocuments) := by
  rcases h : Flu.classifyLocal remote pnIdx fnIdx doc <;>
    by_cases hm : doc.Md5 = "" <;>
      simp [Flu.reconStep, h, hm]

theorem reconStep_matchedPath (remote pnIdx fnIdx : StrMap Doc.Document)
    (st : Flu.ReconState) (doc : Doc.Document) :
    (Flu.reconStep remote pnIdx fnIdx st doc).matchedPath =
      st.matchedPath + (if Flu.rejectedByPath doc.Filepath then 1 else 0) := by
  by_cases hp : Flu.rejectedByPath doc.Filepath
  · have hc : Flu.classifyLocal remote pnIdx fnIdx doc = .path :=
      (classify_path_iff remote pnIdx fnIdx doc).mpr (by simp [hp])
    by_cases hm : doc.Md5 = "" <;> simp [Flu.reconStep, hc, hm, hp]
  · have hc : Flu.classifyLocal remote pnIdx fnIdx doc ≠ .path := by
      intro hplain
      have := (classify_path_iff remote pnIdx fnIdx doc).mp hplain
      simp [this] at hp
    cases h : Flu.classifyLocal remote pnIdx fnIdx doc with
    | path => exact absurd h hc
    | md5 => by_cases hm : doc.Md5 = "" <;> simp [Flu.reconStep, h, hm, hp]
    | pn => by_cases hm : doc.Md5 = "" <;> simp [Flu.reconStep, h, hm, hp]
    | fn => by_cases hm : doc.Md5 = "" <;> simp [Flu.reconStep, h, hm, hp]
    | unique => by_cases hm : doc.Md5 = "" <;> simp [Flu.reconStep, h, hm, hp]

theorem reconFold_unique_sound (remote pnIdx fnIdx : StrMap Doc.Document) :
    ∀ (docs : List Doc.Document) (st : Flu.ReconState),
      (∀ k d, st.uniqueDocuments k = some d →
        Flu.classifyLocal remote pnIdx fnIdx d = .unique ∧ k = d.Filepath) →
      ∀ k d,
        (docs.foldl (Flu.reconStep remote pnIdx fnIdx) st).uniqueDocuments k = some d →
        Flu.classifyLocal remote pnIdx fnIdx d = .unique ∧ k = d.Filepath := by
  intro docs
  induction docs with
  | nil => intro st hst k d h; exact hst k d h
  | cons doc rest ih =>
    intro st hst k d h
    rw [List.foldl_cons] at h
    refine ih _ ?_ k d h
    intro k' d' h'
    rw [reconStep_uniqueDocuments] at h'
    by_cases hc : Flu.classifyLocal remote pnIdx fnIdx doc = .unique
    · rw [if_pos hc] at h'
      by_cases hk : k' = doc.Filepath
      · subst hk
        rw [mapInsert_self] at h'
        cases h'
        exact ⟨hc, rfl⟩
      · rw [mapInsert_other _ _ _ _ hk] at h'
        exact hst k' d' h'
    · rw [if_neg hc] at h'
      exact hst k' d' h'

theorem reconFold_matchedPath (remote pnIdx fnIdx : StrMap Doc.Document) :
    ∀ (docs : List Doc.Document) (st : Flu.ReconState),
      (docs.foldl (Flu.reconStep remote pnIdx fnIdx) st).matchedPath =
        st.matchedPath + docs.countP (fun d => Flu.rejectedByPath d.Filepath) := by
  intro docs
  induction docs with
  | nil => intro st; simp
  | cons doc rest ih =>
    intro st
    rw [List.foldl_cons, ih, reconStep_matchedPath, List.countP_cons]
    by_cases hp : Flu.rejectedByPath doc.Filepath <;> simp [hp] <;> omega

end ReconLemmas

/-- C2. Reconciliation precedence: a local document whose filepath contains a
block-listed fragment is classified rejected-by-path whatever the remote
maps contain (in particular even when its checksum matches no remote key);
documents passing the path check are then tested by checksum, then
normalized part number, then base filename, first match wins; every entry of
the locally-unique output map is a document that passed all four tests
(keyed by its filepath), so a block-listed document is never emitted; and
the rejected-by-path counter counts exactly the block-listed documents. -/
theorem C2_path_rejection_precedence :
    (∀ (remote pnIdx fnIdx : StrMap Doc.Document) (doc : Doc.Document),
      Flu.rejectedByPath doc.Filepath = true →
      Flu.classifyLocal remote pnIdx fnIdx doc = .path) ∧
    (∀ (remote pnIdx fnIdx : StrMap Doc.Document) (doc : Doc.Document),
      Flu.rejectedByPath doc.Filepath = false →
      ((remote doc.Md5).isSome = true →
        Flu.classifyLocal remote pnIdx fnIdx doc = .md5) ∧
      ((remote doc.Md5).isSome = false →
        (pnIdx (GoStr.stripDashDot doc.PartNum)).isSome = true →
        Flu.classifyLocal remote pnIdx fnIdx doc = .pn) ∧
      ((remote doc.Md5).isSome = false →
        (pnIdx (GoStr.stripDashDot doc.PartNum)).isSome = false →
        (fnIdx (GoStr.baseName doc.Filepath)).isSome = true →
        Flu.classifyLocal remote pnIdx fnIdx doc = .fn) ∧
      ((remote doc.Md5).isSome = false →
        (pnIdx (GoStr.stripDashDot doc.PartNum)).isSome = false →
        (fnIdx (GoStr.baseName doc.Filepath)).isSome = false →
        Flu.classifyLocal remote pnIdx fnIdx doc = .unique)) ∧
    (∀ (remote pnIdx fnIdx : StrMap Doc.Document) (docs : List Doc.Document) (k : String)
      (d : Doc.Document),
      (Flu.processLocals remote pnIdx fnIdx docs).uniqueDocuments k = some d →
      Flu.classifyLocal remote pnIdx fnIdx d = .unique ∧ k = d.Filepath ∧
        Flu.rejectedByPath d.Filepath = false) ∧
    (∀ (remote pnIdx fnIdx : StrMap Doc.Document) (docs : List Doc.Document),
      (Flu.processLocals remote pnIdx fnIdx docs).matchedPath =
        docs.countP (fun d => Flu.rejectedByPath d.Filepath)) := by
  refine ⟨?_, ?_, ?_, ?_⟩
  · intro remote pnIdx fnIdx doc h
    simp [Flu.classifyLocal, h]
  · intro remote pnIdx fnIdx doc h
    refine ⟨?_, ?_, ?_, ?_⟩
    · intro h1
      simp [Flu.classifyLocal, h, h1]
    · intro h1 h2
      simp [Flu.classifyLocal, h, h1, h2]
    · intro h1 h2 h3
      simp [Flu.classifyLocal, h, h1, h2, h3]
    · intro h1 h2 h3
      simp [Flu.classifyLocal, h, h1, h2, h3]
  · intro remote pnIdx fnIdx docs k d h
    have hs := reconFold_unique_sound remote pnIdx fnIdx docs Flu.initRecon
      (by intro k' d' h'; simp [Flu.initRecon, emptyMap] at h') k d h
    refine ⟨hs.1, hs.2, ?_⟩
    by_cases hp : Flu.rejectedByPath d.Filepath
    · exfalso
      have := (classify_path_iff remote pnIdx fnIdx d).mpr (by simp [hp])
      rw [hs.1] at this
      cases this
    · simp [hp]
  · intro remote pnIdx fnIdx docs
    have := reconFold_matchedPath remote pnIdx fnIdx docs Flu.initRecon
    simpa [Flu.processLocals, Flu.initRecon] using this

/-- C2 witness: a concrete document whose filepath contains "/bitsavers/" is
classified rejected-by-path even though the remote map matches its checksum
everywhere. -/
theorem C2_path_rejection_precedence_witness :
    Flu.classifyLocal (fun _ => some { Md5 := "X" }) (fun _ => none) (fun _ => none)
      { Md5 := "X", Filepath := "nas/bitsavers/doc.pdf" } = .path :=
  C2_path_rejection_precedence.1 (fun _ => some { Md5 := "X" }) (fun _ => none)
    (fun _ => none) { Md5 := "X", Filepath := "nas/bitsavers/doc.pdf" } (by decide)

section RemoteIndexLemmas

theorem remoteIdx_pn_mono :
    ∀ (remotes : List Doc.Document) (acc : StrMap Doc.Document × StrMap Doc.Document)
      (k : String),
      (acc.1 k).isSome = true →
      ((remotes.foldl Flu.remoteIdxStep acc).1 k).isSome = true := by
  intro remotes
  induction remotes with
  | nil => intro acc k h; simpa using h
  | cons v rest ih =>
    intro acc k h
    rw [List.foldl_cons]
    apply ih
    simp only [Flu.remoteIdxStep]
    by_cases hc : (acc.1 (GoStr.stripDashDot v.PartNum)).isSome = true
    · simpa [hc] using h
    · simp only [hc, if_false]
      exact mapInsert_isSome_of _ _ _ _ h

theorem remoteIdx_pn_present :
    ∀ (remotes : List Doc.Document) (acc : StrMap Doc.Document × StrMap Doc.Document)
      (r : Doc.Document), r ∈ remotes →
      ((remotes.foldl Flu.remoteIdxStep acc).1 (GoStr.stripDashDot r.PartNum)).isSome = true := by
  intro remotes
  induction remotes with
  | nil => intro acc r h; cases h
  | cons v rest ih =>
    intro acc r h
    rw [List.foldl_cons]
    rcases List.mem_cons.mp h with h | h
    · subst h
      apply remoteIdx_pn_mono
      simp only [Flu.remoteIdxStep]
      by_cases hc : (acc.1 (GoStr.stripDashDot r.PartNum)).isSome = true
      · simpa [hc]
      · simp [hc, mapInsert_self]
    · exact ih _ r h

end RemoteIndexLemmas

/-- C10. The remote part-number index is built over all remote documents,
including those with an empty part number, so the empty string becomes a
claimed key as soon as one remote document has no part number; a local
document with an empty part number that passes the path check and whose
checksum matches no remote key is then rejected by the part-number rule and
is never an entry of the locally-unique output map. -/
theorem C10_empty_partnum_rule (remotes : List Doc.Document)
    (remote fnIdx : StrMap Doc.Document) (doc r : Doc.Document)
    (hr : r ∈ remotes) (hrpn : r.PartNum = "")
    (hpath : Flu.rejectedByPath doc.Filepath = false)
    (hmd5 : remote doc.Md5 = none)
    (hdpn : doc.PartNum = "") :
    Flu.classifyLocal remote (Flu.buildRemoteIndexes remotes).1 fnIdx doc = .pn ∧
    (∀ (docs : List Doc.Document) (k : String) (d : Doc.Document),
      (Flu.processLocals remote (Flu.buildRemoteIndexes remotes).1 fnIdx
        docs).uniqueDocuments k = some d → d ≠ doc) := by
  have hkey : GoStr.stripDashDot doc.PartNum = GoStr.stripDashDot r.PartNum := by
    rw [hdpn, hrpn]
  have hpn : ((Flu.buildRemoteIndexes remotes).1
      (GoStr.stripDashDot doc.PartNum)).isSome = true := by
    rw [hkey]
    exact remoteIdx_pn_present remotes _ r hr
  have hclass : Flu.classifyLocal remote (Flu.buildRemoteIndexes remotes).1 fnIdx doc = .pn := by
    simp [Flu.classifyLocal, hpath, hmd5, hpn]
  refine ⟨hclass, ?_⟩
  intro docs k d hd
  have hs := reconFold_unique_sound remote (Flu.buildRemoteIndexes remotes).1 fnIdx docs
    Flu.initRecon (by intro k' d' h'; simp [Flu.initRecon, emptyMap] at h') k d hd
  intro hcontra
  rw [hcontra] at hs
  have himp := hclass.symm.trans hs.1
  simp at himp

/-- C10 witness: one remote document with no part number makes the concrete
local document (empty part number, unblocked path, unmatched checksum)
rejected by the part-number rule. -/
theorem C10_empty_partnum_rule_witness :
    Flu.classifyLocal (fun _ => none) (Flu.buildRemoteIndexes [{ Filepath := "r.pdf" }]).1
      (fun _ => none) { Md5 := "abc", Filepath := "scans/x.pdf" } = .pn :=
  (C10_empty_partnum_rule [{ Filepath := "r.pdf" }] (fun _ => none) (fun _ => none)
    { Md5 := "abc", Filepath := "scans/x.pdf" } { Filepath := "r.pdf" }
    (by simp) rfl (by decide) rfl rfl).1

section MergeLemmas

theorem mergeFile_cons (acc : StrMap Doc.Document × Nat) (e : String × Doc.Document)
    (rest : List (String × Doc.Document)) :
    Flu.mergeFile acc (e :: rest) = Flu.mergeFile (Flu.mergeStep acc e) rest := rfl

theorem mergeStep_mono (acc : StrMap Doc.Document × Nat) (e : String × Doc.Document)
    (k : String) (h : (acc.1 k).isSome = true) :
    ((Flu.mergeStep acc e).1 k).isSome = true := by
  simp only [Flu.mergeStep]
  cases hl : acc.1 (Flu.deriveMergeKey e.1 e.2) with
  | some existing =>
    dsimp only
    split_ifs <;> simpa using h
  | none =>
    exact mapInsert_isSome_of _ _ _ _ h

theorem mergeStep_key_present (acc : StrMap Doc.Document × Nat) (e : String × Doc.Document) :
    ((Flu.mergeStep acc e).1 (Flu.deriveMergeKey e.1 e.2)).isSome = true := by
  simp only [Flu.mergeStep]
  cases hl : acc.1 (Flu.deriveMergeKey e.1 e.2) with
  | some existing =>
    dsimp only
    split_ifs <;> simp [hl]
  | none =>
    simp [mapInsert_self]

theorem mergeStep_noop (acc : StrMap Doc.Document × Nat) (e : String × Doc.Document)
    (h : (acc.1 (Flu.deriveMergeKey e.1 e.2)).isSome = true) :
    (Flu.mergeStep acc e).1 = acc.1 := by
  simp only [Flu.mergeStep]
  cases hl : acc.1 (Flu.deriveMergeKey e.1 e.2) with
  | some existing =>
    dsimp only
    split_ifs <;> rfl
  | none =>
    rw [hl] at h
    simp at h

theorem mergeFile_mono :
    ∀ (S : List (String × Doc.Document)) (acc : StrMap Doc.Document × Nat) (k : String),
      (acc.1 k).isSome = true → ((Flu.mergeFile acc S).1 k).isSome = true := by
  intro S
  induction S with
  | nil => intro acc k h; simpa [Flu.mergeFile] using h
  | cons e rest ih =>
    intro acc k h
    rw [mergeFile_cons]
    exact ih _ k (mergeStep_mono acc e k h)

theorem mergeFile_key_present :
    ∀ (S : List (String × Doc.Document)) (acc : StrMap Doc.Document × Nat)
      (e : String × Doc.Document), e ∈ S →
      ((Flu.mergeFile acc S).1 (Flu.deriveMergeKey e.1 e.2)).isSome = true := by
  intro S
  induction S with
  | nil => intro acc e h; cases h
  | cons f rest ih =>
    intro acc e h
    rw [mergeFile_cons]
    rcases List.mem_cons.mp h with h | h
    · subst h
      exact mergeFile_mono rest _ _ (mergeStep_key_present acc e)
    · exact ih _ e h

theorem mergeFile_noop :
    ∀ (S : List (String × Doc.Document)) (acc : StrMap Doc.Document × Nat),
      (∀ e ∈ S, (acc.1 (Flu.deriveMergeKey e.1 e.2)).isSome = true) →
      (Flu.mergeFile acc S).1 = acc.1 := by
  intro S
  induction S with
  | nil => intro acc _; rfl
  | cons e rest ih =>
    intro acc h
    rw [mergeFile_cons]
    have hstep : (Flu.mergeStep acc e).1 = acc.1 :=
      mergeStep_noop acc e (h e (List.mem_cons_self e rest))
    have hrest : (Flu.mergeFile (Flu.mergeStep acc e) rest).1 = (Flu.mergeStep acc e).1 := by
      apply ih
      intro f hf
      rw [hstep]
      exact h f (List.mem_cons_of_mem e hf)
    rw [hrest, hstep]

end MergeLemmas

/-- C3. Merge idempotence of `BuildMapOfDocuments`: folding the same source
set twice (file list [S, S]) produces exactly the map produced by folding it
once ([S]) — after the first pass every entry's derived key is present, so
the second pass only rediscovers existing keys and keeps the first entries. -/
theorem C3_merge_idempotent (S : List (String × Doc.Document)) :
    (Flu.BuildMapOfDocuments [S, S]).1 = (Flu.BuildMapOfDocuments [S]).1 := by
  have h2 : Flu.BuildMapOfDocuments [S, S] =
      Flu.mergeFile (Flu.mergeFile (emptyMap, 0) S) S := rfl
  have h1 : Flu.BuildMapOfDocuments [S] = Flu.mergeFile (emptyMap, 0) S := rfl
  rw [h2, h1]
  apply mergeFile_noop
  intro e he
  exact mergeFile_key_present S (emptyMap, 0) e he


section FormatLemmas

theorem contains_eq_true_iff (l : List String) (s : String) :
    l.contains s = true ↔ s ∈ l := by
  simp [List.contains, List.elem_eq_mem]

theorem ddf_pos (f : String)
    (hk : Doc.KnownFileTypes.contains (Doc.recatApply (Doc.upperExt f)) = true) :
    Doc.DetermineDocumentFormat f = (Doc.recatApply (Doc.upperExt f), none) := by
  simp only [Doc.DetermineDocumentFormat]
  rw [if_pos hk]

theorem ddf_neg (f : String)
    (hk : Doc.KnownFileTypes.contains (Doc.recatApply (Doc.upperExt f)) = false) :
    Doc.DetermineDocumentFormat f =
      ("???", some "unknown file type when trying to determine document format") := by
  have hne : ¬ (Doc.KnownFileTypes.contains (Doc.recatApply (Doc.upperExt f)) = true) := by
    rw [hk]
    exact Bool.false_ne_true
  simp only [Doc.DetermineDocumentFormat]
  rw [if_neg hne]

theorem recat_mem_iff (s : String) :
    Doc.recatApply s ∈ Doc.KnownFileTypes ↔ s ∈ Doc.acceptedExtensions := by
  by_cases h1 : s = "HTM"
  · subst h1; decide
  by_cases h2 : s = "JP2"
  · subst h2; decide
  by_cases h3 : s = "JPG"
  · subst h3; decide
  by_cases h4 : s = "TIF"
  · subst h4; decide
  have hr : Doc.recatApply s = s := by
    simp [Doc.recatApply, Doc.FileTypesToRecategorise, h1, h2, h3, h4]
  rw [hr]
  simp only [Doc.KnownFileTypes, Doc.acceptedExtensions, List.mem_cons,
    List.not_mem_nil, or_false]
  constructor
  · intro h
    tauto
  · intro h
    tauto

theorem ddf_ok_canonical (f t : String) (h : Doc.DetermineDocumentFormat f = (t, none)) :
    t ∈ Doc.canonicalFormats := by
  by_cases hk : Doc.KnownFileTypes.contains (Doc.recatApply (Doc.upperExt f)) = true
  · rw [ddf_pos f hk] at h
    have ht : Doc.recatApply (Doc.upperExt f) = t := (Prod.ext_iff.mp h).1
    rw [← ht]
    have hmem : Doc.recatApply (Doc.upperExt f) ∈ Doc.KnownFileTypes :=
      (contains_eq_true_iff _ _).mp hk
    by_cases h1 : Doc.upperExt f = "HTM"
    · rw [h1]; decide
    by_cases h2 : Doc.upperExt f = "JP2"
    · rw [h2]; decide
    by_cases h3 : Doc.upperExt f = "JPG"
    · rw [h3]; decide
    by_cases h4 : Doc.upperExt f = "TIF"
    · rw [h4] at hmem
      exact absurd hmem (by decide)
    have hr : Doc.recatApply (Doc.upperExt f) = Doc.upperExt f := by
      simp [Doc.recatApply, Doc.FileTypesToRecategorise, h1, h2, h3, h4]
    rw [hr] at hmem ⊢
    revert hmem
    simp only [Doc.KnownFileTypes, Doc.canonicalFormats, List.mem_cons, List.not_mem_nil,
      or_false]
    intro hmem
    rcases hmem with h|h|h|h|h|h|h|h|h|h|h|h|h|h <;>
      first
        | (rw [h]; decide)
        | exact absurd h h1
        | exact absurd h h3
        | exact absurd h h4
  · rw [ddf_neg f (Bool.eq_false_iff.mpr hk)] at h
    exact absurd (Prod.ext_iff.mp h).2 (by simp)

set_option maxHeartbeats 1000000 in
theorem canonical_stable_doc (t : String) (h : t ∈ Doc.canonicalFormats) :
    Doc.DetermineDocumentFormat ("x." ++ t) = (t, none) := by
  simp only [Doc.canonicalFormats, List.mem_cons, List.not_mem_nil, or_false] at h
  rcases h with h|h|h|h|h|h|h|h|h|h|h <;> subst h <;> decide

theorem dff_some_canonical (f t : String) (h : Lav.DetermineFileFormat f = some t) :
    t ∈ Lav.canonicalFormats := by
  by_cases h1 : Doc.upperExt f = "HTM"
  · have hval : Lav.DetermineFileFormat f = some "HTML" := by
      unfold Lav.DetermineFileFormat
      rw [h1]
      decide
    rw [hval] at h
    injection h with h
    rw [← h]
    decide
  by_cases h2 : Doc.upperExt f = "JPE"
  · have hval : Lav.DetermineFileFormat f = some "JPEG" := by
      unfold Lav.DetermineFileFormat
      rw [h2]
      decide
    rw [hval] at h
    injection h with h
    rw [← h]
    decide
  · have he1 : (Doc.upperExt f == "HTM") = false := by simp [h1]
    have he2 : (Doc.upperExt f == "JPE") = false := by simp [h2]
    have hval : Lav.DetermineFileFormat f =
        (if Lav.KnownFileTypes.contains (Doc.upperExt f) = true
         then some (Doc.upperExt f) else none) := by
      simp only [Lav.DetermineFileFormat, he1, Bool.false_eq_true, if_false, he2]
    rw [hval] at h
    split_ifs at h with hk
    · injection h with h
      rw [← h]
      have hmem : Doc.upperExt f ∈ Lav.KnownFileTypes := (contains_eq_true_iff _ _).mp hk
      revert hmem
      simp only [Lav.KnownFileTypes, Lav.canonicalFormats, List.mem_cons, List.not_mem_nil,
        or_false]
      intro hmem
      rcases hmem with h|h|h|h|h|h|h|h|h|h|h|h <;>
        first
          | (rw [h]; decide)
          | exact absurd h h1

set_option maxHeartbeats 1000000 in
theorem canonical_stable_lav (t : String) (h : t ∈ Lav.canonicalFormats) :
    Lav.DetermineFileFormat ("x." ++ t) = some t := by
  simp only [Lav.canonicalFormats, List.mem_cons, List.not_mem_nil, or_false] at h
  rcases h with h|h|h|h|h|h|h|h|h|h|h <;> subst h <;> decide

end FormatLemmas

/-- C5 counterexample: ".tif" has an extension inside the enumerated
KnownFileTypes allow-list yet `DetermineDocumentFormat` fails on it (TIF is
recategorised to TIFF, which the list lacks), and ".jp2" has an extension
outside the list yet succeeds — both directions of the claimed biconditional
fail. -/
theorem C5_counterexample :
    ("TIF" ∈ Doc.KnownFileTypes ∧ Doc.upperExt "manual.tif" = "TIF" ∧
      (Doc.DetermineDocumentFormat "manual.tif").2.isSome = true ∧
      (Doc.DetermineDocumentFormat "manual.tif").1 = "???") ∧
    ("JP2" ∉ Doc.KnownFileTypes ∧ Doc.upperExt "scan.jp2" = "JP2" ∧
      Doc.DetermineDocumentFormat "scan.jp2" = ("JPEG", none)) := by
  refine ⟨⟨?_, ?_, ?_, ?_⟩, ⟨?_, ?_, ?_⟩⟩ <;> decide

/-- C5. Format normalization error contract, as amended:
`DetermineDocumentFormat` succeeds — returning the canonical token obtained
by recategorising the uppercased extension — exactly when that uppercased
extension is in the effective accepted set (KnownFileTypes with TIF removed
and JP2 added), and errors exactly otherwise. -/
theorem C5_format_error_contract (f : String) :
    (Doc.DetermineDocumentFormat f = (Doc.recatApply (Doc.upperExt f), none) ↔
      Doc.upperExt f ∈ Doc.acceptedExtensions) ∧
    ((Doc.DetermineDocumentFormat f).2.isSome = true ↔
      Doc.upperExt f ∉ Doc.acceptedExtensions) := by
  by_cases h : Doc.upperExt f ∈ Doc.acceptedExtensions
  · have hk : Doc.KnownFileTypes.contains (Doc.recatApply (Doc.upperExt f)) = true :=
      (contains_eq_true_iff _ _).mpr ((recat_mem_iff _).mpr h)
    rw [ddf_pos f hk]
    constructor
    · simp [h]
    · simp [h]
  · have hk : Doc.KnownFileTypes.contains (Doc.recatApply (Doc.upperExt f)) = false := by
      rw [Bool.eq_false_iff]
      intro hc
      exact h ((recat_mem_iff _).mp ((contains_eq_true_iff _ _).mp hc))
    rw [ddf_neg f hk]
    constructor
    · constructor
      · intro hc
        exact absurd (Prod.ext_iff.mp hc).2 (by simp)
      · intro hc
        exact absurd hc h
    · simp [h]

/-- C5 witness: the theorem applied at the concrete filename "a.pdf", whose
uppercased extension PDF is in the accepted set. -/
theorem C5_format_error_contract_witness :
    Doc.DetermineDocumentFormat "a.pdf" = (Doc.recatApply (Doc.upperExt "a.pdf"), none) :=
  (C5_format_error_contract "a.pdf").1.mpr (by decide)

/-- C6 counterexample: under the local-archive-to-yaml normalizer
`DetermineFileFormat` (one of the claim's cited functions), the two JPEG
extensions do not map to one and the same canonical token: ".jpg" yields JPG
while ".jpeg" yields JPEG. -/
theorem C6_counterexample :
    Lav.DetermineFileFormat "a.jpg" = some "JPG" ∧
    Lav.DetermineFileFormat "a.jpeg" = some "JPEG" ∧
    (some "JPG" : Option String) ≠ some "JPEG" := by
  refine ⟨?_, ?_, ?_⟩ <;> decide

/-- C6. Format normalization stability and synonym unification, as amended:
both normalizers are stable on filenames whose extension is already one of
their canonical output tokens; the two HTML extensions unify to HTML in
both; the two JPEG extensions unify to JPEG in `DetermineDocumentFormat`,
but in `DetermineFileFormat` they stay distinct (JPG and JPEG — its JPEG
synonym mapping is .JPE, not .JPG). -/
theorem C6_format_stability :
    (∀ f t, Doc.DetermineDocumentFormat f = (t, none) →
      Doc.DetermineDocumentFormat ("x." ++ t) = (t, none)) ∧
    (∀ f t, Lav.DetermineFileFormat f = some t →
      Lav.DetermineFileFormat ("x." ++ t) = some t) ∧
    (Doc.DetermineDocumentFormat "a.htm" = ("HTML", none) ∧
     Doc.DetermineDocumentFormat "a.html" = ("HTML", none) ∧
     Doc.DetermineDocumentFormat "a.jpg" = ("JPEG", none) ∧
     Doc.DetermineDocumentFormat "a.jpeg" = ("JPEG", none)) ∧
    (Lav.DetermineFileFormat "a.htm" = some "HTML" ∧
     Lav.DetermineFileFormat "a.html" = some "HTML" ∧
     Lav.DetermineFileFormat "a.jpg" = some "JPG" ∧
     Lav.DetermineFileFormat "a.jpeg" = some "JPEG") := by
  refine ⟨?_, ?_, ⟨?_, ?_, ?_, ?_⟩, ⟨?_, ?_, ?_, ?_⟩⟩
  · intro f t h
    exact canonical_stable_doc t (ddf_ok_canonical f t h)
  · intro f t h
    exact canonical_stable_lav t (dff_some_canonical f t h)
  all_goals decide

/-- C6 witness: the stability conjuncts applied at the concrete filename
"a.pdf" and token PDF, for both normalizers. -/
theorem C6_format_stability_witness :
    Doc.DetermineDocumentFormat ("x." ++ "PDF") = ("PDF", none) ∧
    Lav.DetermineFileFormat ("x." ++ "PDF") = some "PDF" :=
  ⟨C6_format_stability.1 "a.pdf" "PDF" (by decide),
   C6_format_stability.2.1 "a.pdf" "PDF" (by decide)⟩
